import Mathlib

/-!
Verification of the routing / turn-sequencing core of the Team-Chatbot
repository.  The Python source is shallowly embedded: the external LLM
("classifier" / "completion") is modelled by oracles supplying its output,
floats are modelled by rationals, dicts by association lists, and every
control loop of the source is reproduced with its exact guards and caps.
-/

/-- The agent ids of the static roster `AGENTS` in `agents.py`, in the
dict's insertion order: `mathew`, `rahil`, `shreyas`, `siddarth`. -/
def agentIds : List String := ["mathew", "rahil", "shreyas", "siddarth"]

/-- Parsed classifier output, as produced by
`IntentRouter._parse_routing_response`: the required `agents` list plus
the optional fields read with `.get` defaults.  Confidence is a rational
standing for the Python float. -/
structure ParsedRouting where
  agents : List String
  isTargeted : Option Bool
  confidence : Option ℚ
  intent : Option String
deriving DecidableEq

/-- The routing decision value object of `intent_router.py` (the
`reasoning` string is ignored: no claim depends on it). -/
structure RoutingDecision where
  agent_ids : List String
  is_targeted : Bool
  confidence : ℚ
  context : Option String
deriving DecidableEq

/-- `IntentRouter.route_user_query`, lines 126-140 of `intent_router.py`,
from the point where the classifier output has been parsed: keep only
roster ids; if none are left fall back to the whole roster; the returned
confidence is `routing_data.get('confidence', 0.5)` regardless of the
fallback. -/
def route_user_query (d : ParsedRouting) : RoutingDecision :=
  let valid_agents := d.agents.filter (fun aid => decide (aid ∈ agentIds))
  let valid_agents := if valid_agents = [] then agentIds else valid_agents
  { agent_ids := valid_agents
    is_targeted := d.isTargeted.getD false
    confidence := d.confidence.getD (1/2)
    context := d.intent }

/-- `IntentRouter.route_agent_response`, lines 189-201 of
`intent_router.py`: keep only roster ids different from the replying
agent; `is_targeted` is `len(valid_agents) > 0`. -/
def route_agent_response (agent_id : String) (d : ParsedRouting) : RoutingDecision :=
  let valid_agents :=
    d.agents.filter (fun aid => decide (aid ∈ agentIds) && decide (aid ≠ agent_id))
  { agent_ids := valid_agents
    is_targeted := decide (0 < valid_agents.length)
    confidence := d.confidence.getD (9/10)
    context := none }

/-- One entry of `ConversationSession.messages` in
`conversation_manager.py` (the open metadata bag and the wall-clock
timestamp are irrelevant to the claims). -/
structure Message where
  role : String
  content : String
  agent : Option String
deriving DecidableEq

/-- `ConversationSession.get_history`, lines 31-48 of
`conversation_manager.py`: optionally filter by role, then
`messages[-max_messages:] if max_messages else messages`. -/
def get_history (messages : List Message) (max_messages : Nat)
    (role_filter : Option String) : List Message :=
  let msgs := match role_filter with
    | some r => messages.filter (fun m => m.role == r)
    | none => messages
  if max_messages ≠ 0 then msgs.drop (msgs.length - max_messages) else msgs

/-- A conversation session as stored in `ConversationManager.sessions`
(only identity-relevant fields are kept). -/
structure ConversationSession where
  session_id : String
  messages : List Message
deriving DecidableEq

/-- `ConversationManager.delete_session`, lines 237-251 of
`conversation_manager.py`.  The `sessions` dict is modelled as an
association list with distinct keys; the function returns the Python
result `True`/`False` together with the store after the call. -/
def delete_session (sessions : List (String × ConversationSession))
    (session_id : String) : Bool × List (String × ConversationSession) :=
  if (sessions.lookup session_id).isSome then
    (true, sessions.eraseP (fun p => p.1 == session_id))
  else
    (false, sessions)

/-- The agreement keyword list of `MultiAgentSystem._detect_consensus`
(`agents.py`, lines 1246-1250). -/
def agreement_keywords : List String :=
  ["i agree", "building on", "like @", "as @", "mentioned", "great point",
   "exactly", "precisely", "aligns with", "supports", "same approach", "consistent"]

/-- The conflict keyword list of `MultiAgentSystem._detect_consensus`
(`agents.py`, lines 1252-1255). -/
def conflict_keywords : List String :=
  ["however", "but", "instead", "different approach", "disagree",
   "alternative", "on the other hand"]

/-- Contiguous-sublist test on character lists (the meaning of Python's
`in` on strings). -/
def charSub (needle : List Char) : List Char → Bool
  | [] => needle.isEmpty
  | c :: rest => needle.isPrefixOf (c :: rest) || charSub needle rest

/-- Python `text.lower()`, as the character list of the lower-cased
text. -/
def lowerChars (s : String) : List Char :=
  s.toList.map Char.toLower

/-- Python `keyword in text.lower()`: substring containment on the
lower-cased text. -/
def keywordInText (kw text : String) : Bool :=
  charSub kw.toList (lowerChars text)

/-- Hit count of the double `for` loop in `_detect_consensus`: one hit per
(response, keyword) pair whose keyword occurs in the response text. -/
def keywordHits (keywords : List String) (round_texts : List String) : Nat :=
  (round_texts.map (fun t => (keywords.filter (fun kw => keywordInText kw t)).length)).sum

/-- `MultiAgentSystem._detect_consensus`, lines 1222-1282 of `agents.py`.
A round is modelled by the list of its responses' `content` strings, the
Python float score by a rational.  Only the last round's texts are
scanned (the previous round is bound but unused in the source). -/
def detect_consensus (all_round_responses : List (List String)) : ℚ :=
  if all_round_responses.length < 2 then 0
  else
    let curr_round := all_round_responses.getLastD []
    let agreement_count := keywordHits agreement_keywords curr_round
    let conflict_count := keywordHits conflict_keywords curr_round
    let total_indicators := agreement_count + conflict_count
    if total_indicators = 0 then 1/2
    else
      let consensus : ℚ := (agreement_count : ℚ) / (total_indicators : ℚ)
      if 3 ≤ curr_round.length ∧ 2 ≤ agreement_count then
        min 1 (consensus + 2/10)
      else consensus

/-- The agent-to-agent round cap
`MultiAgentSystem.max_agent_to_agent_rounds` (`agents.py`, line 743). -/
def max_agent_to_agent_rounds : Nat := 2

/-- The hard iteration cap `max_total_iterations` of
`_group_chat_dynamic_routing` (`agents.py`, line 827). -/
def max_total_iterations : Nat := 10

/-- Loop state of `_group_chat_dynamic_routing`: the pending
`agent_queue`, the `responded_agents` set (kept as a list), the
`agent_to_agent_round` counter, the `iteration_count`, and the ids of
the completed turns in order. -/
structure GroupState where
  queue : List String
  responded : List String
  round : Nat
  iterations : Nat
  turns : List String
deriving DecidableEq

/-- The tier-2 enqueue loop (`agents.py`, lines 910-914): each mentioned
id neither already responded nor already queued is appended to the queue
and recorded.  Returns the final queue and the `newly_added` list. -/
def enqueueMentions (responded : List String) : List String → List String →
    List String × List String
  | queue, [] => (queue, [])
  | queue, m :: rest =>
    if m ∉ responded ∧ m ∉ queue then
      ((enqueueMentions responded (queue ++ [m]) rest).1,
        m :: (enqueueMentions responded (queue ++ [m]) rest).2)
    else
      enqueueMentions responded queue rest

/-- One iteration of the `while` loop of `_group_chat_dynamic_routing`
(`agents.py`, lines 830-921).  `oracle` abstracts the external calls of
the iteration: given the pre-iteration state and the dequeued agent id
it returns the id list of `route_agent_response(...)` — `[]` both when
`MentionParser.has_mentions` is false and when tier-2 routing raises,
which the source logs and swallows.  Every iteration increments
`iteration_count` and pops the queue head; an id already responded or
not in the roster is skipped; otherwise the agent completes a turn, is
added to `responded_agents`, and its follow-up mentions are enqueued,
the round counter incrementing exactly when `newly_added` is nonempty. -/
def groupStep (oracle : GroupState → String → List String) (st : GroupState) : GroupState :=
  match st.queue with
  | [] => { st with iterations := st.iterations + 1 }
  | agent_id :: rest =>
    if agent_id ∈ st.responded then
      { st with queue := rest, iterations := st.iterations + 1 }
    else if agent_id ∉ agentIds then
      { st with queue := rest, iterations := st.iterations + 1 }
    else
      let responded2 := st.responded ++ [agent_id]
      let enq := enqueueMentions responded2 rest (oracle st agent_id)
      { queue := enq.1
        responded := responded2
        round := if enq.2 ≠ [] then st.round + 1 else st.round
        iterations := st.iterations + 1
        turns := st.turns ++ [agent_id] }

/-- The `while` guard of `_group_chat_dynamic_routing`, line 830. -/
abbrev groupGuard (st : GroupState) : Prop :=
  st.queue ≠ [] ∧ st.round ≤ max_agent_to_agent_rounds ∧
    st.iterations < max_total_iterations

/-- The `while` loop of `_group_chat_dynamic_routing` (lines 830-921),
run from an arbitrary state.  A Group-mode pass seeds the queue with the
Tier-1 routing decision's agent ids and all counters at zero. -/
def groupLoop (oracle : GroupState → String → List String) (st : GroupState) : GroupState :=
  if h : groupGuard st then groupLoop oracle (groupStep oracle st) else st
termination_by max_total_iterations - st.iterations
decreasing_by
  have h1 : (groupStep oracle st).iterations = st.iterations + 1 := by
    unfold groupStep
    split
    · rfl
    · split
      · rfl
      · split
        · rfl
        · rfl
  have h2 : st.iterations < max_total_iterations := h.2.2
  omega

/-- `Orchestrator.analyze_query` (`agents.py`, lines 599-645) from the
parsed JSON array of the LLM response: filter to roster ids and fall
back to all agents when nothing valid remains (the no-JSON and exception
paths also return all agents). -/
def analyze_query (raw : List String) : List String :=
  let agent_order := raw.filter (fun a => decide (a ∈ agentIds))
  if agent_order = [] then agentIds else agent_order

/-- The designated conference leader
(`ConferenceOrchestrator.__init__`, line 679). -/
def leader : String := "rahil"

/-- The sequence of completed turns of
`ConferenceOrchestrator.coordinate_conference` (`agents.py`, lines
681-727): the leader speaks first, then every agent of the analyzed
order except the leader speaks once, in that order.  `raw` is the parsed
classifier output consumed by `analyze_query`. -/
def coordinate_conference_turns (raw : List String) : List String :=
  leader :: (analyze_query raw).filter (fun a => decide (a ≠ leader))

/-- The per-round iteration cap `max_iterations_per_round` of
`think_tank_mode` (`agents.py`, line 1016). -/
def max_iterations_per_round : Nat := 10

/-- State of one Think-Tank round's inner queue loop (`agents.py`,
lines 1011-1090). -/
structure RoundState where
  queue : List String
  responded : List String
  iterations : Nat
  turns : List String
deriving DecidableEq

/-- The round loop's `while` guard, line 1020. -/
abbrev roundGuard (st : RoundState) : Prop :=
  st.queue ≠ [] ∧ st.iterations < max_iterations_per_round

/-- One iteration of the Think-Tank round loop (lines 1020-1090):
dequeue, skip ids already responded this round or outside the roster,
otherwise complete a turn and enqueue the not-yet-responded,
not-yet-queued follow-up mentions (no round counter here; mention
routing failures are swallowed, i.e. the oracle returns `[]`). -/
def roundStep (oracle : RoundState → String → List String) (st : RoundState) : RoundState :=
  match st.queue with
  | [] => { st with iterations := st.iterations + 1 }
  | agent_id :: rest =>
    if agent_id ∈ st.responded then
      { st with queue := rest, iterations := st.iterations + 1 }
    else if agent_id ∉ agentIds then
      { st with queue := rest, iterations := st.iterations + 1 }
    else
      let responded2 := st.responded ++ [agent_id]
      let enq := enqueueMentions responded2 rest (oracle st agent_id)
      { queue := enq.1
        responded := responded2
        iterations := st.iterations + 1
        turns := st.turns ++ [agent_id] }

/-- The round's `while` loop, lines 1020-1090. -/
def roundLoop (oracle : RoundState → String → List String) (st : RoundState) : RoundState :=
  if h : roundGuard st then roundLoop oracle (roundStep oracle st) else st
termination_by max_iterations_per_round - st.iterations
decreasing_by
  have h1 : (roundStep oracle st).iterations = st.iterations + 1 := by
    unfold roundStep
    split
    · rfl
    · split
      · rfl
      · split
        · rfl
        · rfl
  have h2 : st.iterations < max_iterations_per_round := h.2
  omega

/-- Observable events of a Think-Tank pass: the streamed round markers,
agent turns, consensus updates, the leader's closing synthesis turn
(`rahil_summary`), and — on the greeting path — the delegated Group-mode
turns. -/
inductive TTEvent where
  | roundStart (round : Nat)
  | agentTurn (round : Nat) (agent_id : String)
  | roundComplete (round : Nat)
  | consensusUpdate (round : Nat) (score : ℚ)
  | summary
  | groupTurn (agent_id : String)
deriving DecidableEq

/-- Outer state of the Think-Tank discussion loop (`agents.py`, lines
972-1122). -/
structure TTState where
  discussion_round : Nat
  consensus_reached : Bool
  allRounds : List (List String)
  events : List TTEvent

/-- The outer `while` guard of `think_tank_mode`, line 999. -/
abbrev ttGuard (max_rounds : Nat) (st : TTState) : Prop :=
  st.discussion_round < max_rounds ∧ st.consensus_reached = false

/-- One iteration of the outer Think-Tank loop (`agents.py`, lines
999-1122): bump the round counter, run the round's queue loop seeded
with the fixed participating agents, record the round's response texts
(`content` gives each turn's text, after the web-research step), and
from round 2 on run the consensus check, setting `consensus_reached`
when the score reaches `min_consensus` (the source's `break` ends the
loop at the next guard check exactly as the flag does, since the `break`
is the body's last action). -/
def ttBody (participants : List String)
    (oracle : Nat → RoundState → String → List String)
    (content : Nat → String → String) (min_consensus : ℚ) (st : TTState) : TTState :=
  let r := st.discussion_round + 1
  let roundFinal := roundLoop (oracle r)
    { queue := participants, responded := [], iterations := 0, turns := [] }
  let round_texts := roundFinal.turns.map (content r)
  let allRounds := st.allRounds ++ [round_texts]
  let events := st.events ++ [TTEvent.roundStart r] ++
    roundFinal.turns.map (TTEvent.agentTurn r) ++ [TTEvent.roundComplete r]
  if 1 < r then
    let score := detect_consensus allRounds
    let events := events ++ [TTEvent.consensusUpdate r score]
    if min_consensus ≤ score then
      { discussion_round := r, consensus_reached := true,
        allRounds := allRounds, events := events }
    else
      { discussion_round := r, consensus_reached := false,
        allRounds := allRounds, events := events }
  else
    { discussion_round := r, consensus_reached := st.consensus_reached,
      allRounds := allRounds, events := events }

/-- The outer `while` loop of `think_tank_mode`, lines 999-1122. -/
def ttLoop (participants : List String)
    (oracle : Nat → RoundState → String → List String)
    (content : Nat → String → String) (max_rounds : Nat) (min_consensus : ℚ)
    (st : TTState) : TTState :=
  if h : ttGuard max_rounds st then
    ttLoop participants oracle content max_rounds min_consensus
      (ttBody participants oracle content min_consensus st)
  else st
termination_by max_rounds - st.discussion_round
decreasing_by
  have h1 : (ttBody participants oracle content min_consensus st).discussion_round =
      st.discussion_round + 1 := by
    simp only [ttBody]
    split
    · split
      · rfl
      · rfl
    · rfl
  have h2 : st.discussion_round < max_rounds := h.1
  omega

/-- `MultiAgentSystem.think_tank_mode` (`agents.py`, lines 936-1186) as
the list of observable events of a run no exception aborts.  `d0` is the
parsed output of the single initial `route_user_query` call fixing the
participating agents; when its intent is `greeting` the whole pass is
delegated to Group mode (lines 992-997, with `dGroup` the parsed output
of that inner pass's own routing call) and the function returns; else
the multi-round loop runs and the leader emits exactly one closing
synthesis turn (lines 1124-1159). -/
def think_tank_mode (d0 dGroup : ParsedRouting)
    (oracle : Nat → RoundState → String → List String)
    (groupOracle : GroupState → String → List String)
    (content : Nat → String → String) (max_rounds : Nat) (min_consensus : ℚ) :
    List TTEvent :=
  let routing_decision := route_user_query d0
  let participating_agents := routing_decision.agent_ids
  if routing_decision.context = some "greeting" then
    (groupLoop groupOracle
      { queue := (route_user_query dGroup).agent_ids, responded := [],
        round := 0, iterations := 0, turns := [] }).turns.map TTEvent.groupTurn
  else
    let final := ttLoop participating_agents oracle content max_rounds min_consensus
      { discussion_round := 0, consensus_reached := false, allRounds := [], events := [] }
    final.events ++ [TTEvent.summary]

/-- Number of leader synthesis turns in a Think-Tank event stream. -/
def summaryCount (events : List TTEvent) : Nat :=
  (events.filter (fun e => decide (e = TTEvent.summary))).length

/-- C3: if the classifier output validates to zero roster ids the Turn
Router returns the whole roster, and the returned agent id list is never
empty. -/
theorem route_user_query_fallback_roster (d : ParsedRouting) :
    (d.agents.filter (fun aid => decide (aid ∈ agentIds)) = [] →
      (route_user_query d).agent_ids = agentIds) ∧
    (route_user_query d).agent_ids ≠ [] := by
  have hproj : (route_user_query d).agent_ids =
      if d.agents.filter (fun aid => decide (aid ∈ agentIds)) = [] then agentIds
      else d.agents.filter (fun aid => decide (aid ∈ agentIds)) := rfl
  rw [hproj]
  constructor
  · intro h
    rw [if_pos h]
  · by_cases h : d.agents.filter (fun aid => decide (aid ∈ agentIds)) = []
    · rw [if_pos h]
      decide
    · rw [if_neg h]
      exact h

/-- Witness for C3 at a concrete classifier output that validates to zero
roster ids. -/
theorem route_user_query_fallback_roster_witness :
    (route_user_query ⟨["bob"], none, none, none⟩).agent_ids = agentIds ∧
    (route_user_query ⟨["bob"], none, none, none⟩).agent_ids ≠ [] :=
  ⟨(route_user_query_fallback_roster ⟨["bob"], none, none, none⟩).1 (by decide),
    (route_user_query_fallback_roster ⟨["bob"], none, none, none⟩).2⟩

/-- C4: agent-reply routing returns only roster ids and never the
replying agent's own id. -/
theorem route_agent_response_valid_no_self (agent_id : String) (d : ParsedRouting) :
    ∀ aid ∈ (route_agent_response agent_id d).agent_ids,
      aid ∈ agentIds ∧ aid ≠ agent_id := by
  intro aid h
  unfold route_agent_response at h
  simp only [List.mem_filter, Bool.and_eq_true, decide_eq_true_iff] at h
  exact h.2

/-- C8 evidence: a classifier output whose agent list validates to zero
roster ids triggers the all-agents fallback, yet the returned confidence
is the classifier-reported value unchanged (here the maximum 1.0), equal
to the confidence of a normal non-fallback decision: the code reduces
confidence to 0.5 only when the `confidence` key is absent, never because
of the fallback, contradicting its own inline comment. -/
theorem fallback_confidence_not_reduced :
    (route_user_query ⟨["bob"], none, some 1, none⟩).agent_ids = agentIds ∧
    (route_user_query ⟨["bob"], none, some 1, none⟩).confidence = 1 ∧
    (route_user_query ⟨["rahil"], none, some 1, none⟩).agent_ids = ["rahil"] ∧
    (route_user_query ⟨["rahil"], none, some 1, none⟩).confidence = 1 := by
  refine ⟨?_, rfl, ?_, rfl⟩ <;> decide

/-- C9: `get_history` with `max_messages = 0` returns the entire history
in order; a positive `n` returns exactly the last `n` messages (a suffix
of the history, of length `min n (length)`). -/
theorem get_history_limit (msgs : List Message) (n : Nat) (h : 0 < n) :
    get_history msgs 0 none = msgs ∧
    get_history msgs n none = msgs.drop (msgs.length - n) ∧
    (get_history msgs n none).IsSuffix msgs ∧
    (get_history msgs n none).length = min n msgs.length := by
  have h0 : get_history msgs 0 none = msgs := rfl
  have hn : get_history msgs n none = msgs.drop (msgs.length - n) := by
    unfold get_history
    rw [if_pos (Nat.pos_iff_ne_zero.mp h)]
  refine ⟨h0, hn, ?_, ?_⟩
  · rw [hn]
    exact List.drop_suffix _ _
  · rw [hn, List.length_drop]
    omega

/-- Witness for C9 on a concrete two-message history with `n = 1`. -/
theorem get_history_limit_witness :
    get_history [⟨"user", "a", none⟩, ⟨"agent", "b", some "rahil"⟩] 0 none =
      [⟨"user", "a", none⟩, ⟨"agent", "b", some "rahil"⟩] ∧
    (get_history [⟨"user", "a", none⟩, ⟨"agent", "b", some "rahil"⟩] 1 none).length = 1 := by
  have h := get_history_limit [⟨"user", "a", none⟩, ⟨"agent", "b", some "rahil"⟩] 1 (by decide)
  exact ⟨h.1, h.2.2.2⟩

/-- Looking a key up after erasing a different key gives the same result
as in the original store. -/
theorem lookup_eraseP_ne (k k2 : String) (h : k2 ≠ k) :
    ∀ s : List (String × ConversationSession),
      (s.eraseP (fun p => p.1 == k)).lookup k2 = s.lookup k2
  | [] => rfl
  | p :: t => by
    by_cases hp : p.1 = k
    · have h1 : (p.1 == k) = true := beq_iff_eq.mpr hp
      have h2 : (k2 == p.1) = false :=
        beq_eq_false_iff_ne.mpr (fun e => h (e.trans hp))
      simp only [List.eraseP_cons, h1, cond_true, List.lookup, h2]
    · have h1 : (p.1 == k) = false := beq_eq_false_iff_ne.mpr hp
      by_cases hk : k2 = p.1
      · have h2 : (k2 == p.1) = true := beq_iff_eq.mpr hk
        simp only [List.eraseP_cons, h1, cond_false, List.lookup, h2]
      · have h2 : (k2 == p.1) = false := beq_eq_false_iff_ne.mpr hk
        simp only [List.eraseP_cons, h1, cond_false, List.lookup, h2]
        exact lookup_eraseP_ne k k2 h t

/-- A key absent from the key list looks up to `none`. -/
theorem lookup_eq_none_of_not_mem (k : String) :
    ∀ s : List (String × ConversationSession),
      k ∉ s.map Prod.fst → s.lookup k = none
  | [] => fun _ => rfl
  | p :: t => fun h => by
    have h1 : (k == p.1) = false :=
      beq_eq_false_iff_ne.mpr (fun e => h (by simp [e]))
    simp only [List.lookup, h1]
    exact lookup_eq_none_of_not_mem k t (fun hm => h (List.mem_cons_of_mem _ hm))

/-- With distinct keys, erasing a key removes it from lookup. -/
theorem lookup_eraseP_self (k : String) :
    ∀ s : List (String × ConversationSession), (s.map Prod.fst).Nodup →
      (s.eraseP (fun p => p.1 == k)).lookup k = none
  | [] => fun _ => rfl
  | p :: t => fun hnd => by
    obtain ⟨hp, ht⟩ : p.1 ∉ t.map Prod.fst ∧ (t.map Prod.fst).Nodup := by
      simpa using hnd
    by_cases hk : p.1 = k
    · have h1 : (p.1 == k) = true := beq_iff_eq.mpr hk
      simp only [List.eraseP_cons, h1, cond_true]
      exact lookup_eq_none_of_not_mem k t (hk ▸ hp)
    · have h1 : (p.1 == k) = false := beq_eq_false_iff_ne.mpr hk
      have h2 : (k == p.1) = false := beq_eq_false_iff_ne.mpr (fun e => hk e.symm)
      simp only [List.eraseP_cons, h1, cond_false, List.lookup, h2]
      exact lookup_eraseP_self k t ht

/-- C10: `delete_session` returns `True` iff the session id exists; when
`True` the session is removed, when `False` the store is unchanged, and
every other session's entry is unaffected in both cases. -/
theorem delete_session_correct (s : List (String × ConversationSession)) (sid : String)
    (hnd : (s.map Prod.fst).Nodup) :
    ((delete_session s sid).1 = true ↔ (s.lookup sid).isSome) ∧
    ((delete_session s sid).1 = true → (delete_session s sid).2.lookup sid = none) ∧
    ((delete_session s sid).1 = false → (delete_session s sid).2 = s) ∧
    (∀ sid2, sid2 ≠ sid → (delete_session s sid).2.lookup sid2 = s.lookup sid2) := by
  by_cases h : (s.lookup sid).isSome
  · have hd : delete_session s sid = (true, s.eraseP (fun p => p.1 == sid)) := by
      unfold delete_session
      rw [if_pos h]
    rw [hd]
    refine ⟨⟨fun _ => h, fun _ => rfl⟩, fun _ => lookup_eraseP_self sid s hnd,
      fun ht => absurd ht (by simp), fun sid2 hne => lookup_eraseP_ne sid sid2 hne s⟩
  · have hd : delete_session s sid = (false, s) := by
      unfold delete_session
      rw [if_neg h]
    rw [hd]
    refine ⟨⟨fun hf => absurd hf (by simp), fun hs => absurd hs h⟩,
      fun hf => absurd hf (by simp), fun _ => rfl, fun _ _ => rfl⟩

/-- Witness for C10 on a concrete two-session store. -/
theorem delete_session_correct_witness :
    (delete_session [("s1", ⟨"s1", []⟩), ("s2", ⟨"s2", []⟩)] "s1").1 = true ∧
    (delete_session [("s1", ⟨"s1", []⟩), ("s2", ⟨"s2", []⟩)] "s1").2.lookup "s1" = none ∧
    (delete_session [("s1", ⟨"s1", []⟩), ("s2", ⟨"s2", []⟩)] "s1").2.lookup "s2" =
      List.lookup "s2" [("s1", (⟨"s1", []⟩ : ConversationSession)), ("s2", ⟨"s2", []⟩)] := by
  have h := delete_session_correct [("s1", ⟨"s1", []⟩), ("s2", ⟨"s2", []⟩)] "s1" (by decide)
  have h1 : (delete_session [("s1", ⟨"s1", []⟩), ("s2", ⟨"s2", []⟩)] "s1").1 = true :=
    h.1.mpr (by decide)
  exact ⟨h1, h.2.1 h1, h.2.2.2 "s2" (by decide)⟩

/-- C5: with at least two recorded rounds, the consensus score is
`agreement/(agreement+conflict)` over the current round's texts, `1/2`
when no keyword matches, and the `+0.2` bonus capped at `1` applies
exactly when the round has at least 3 responses and at least 2 agreement
hits. -/
theorem detect_consensus_formula (rounds : List (List String)) (curr : List String)
    (a c : Nat) (h2 : 2 ≤ rounds.length) (hcurr : rounds.getLastD [] = curr)
    (ha : keywordHits agreement_keywords curr = a)
    (hc : keywordHits conflict_keywords curr = c) :
    (a + c = 0 → detect_consensus rounds = 1/2) ∧
    (a + c ≠ 0 → (3 ≤ curr.length ∧ 2 ≤ a) →
      detect_consensus rounds = min 1 ((a : ℚ) / ((a : ℚ) + (c : ℚ)) + 2/10)) ∧
    (a + c ≠ 0 → ¬(3 ≤ curr.length ∧ 2 ≤ a) →
      detect_consensus rounds = (a : ℚ) / ((a : ℚ) + (c : ℚ))) := by
  subst hcurr
  subst ha
  subst hc
  simp only [detect_consensus]
  rw [if_neg (by omega)]
  refine ⟨fun h0 => ?_, fun hne hb => ?_, fun hne hb => ?_⟩
  · rw [if_pos h0]
  · rw [if_neg hne, if_pos hb]
    push_cast
    rfl
  · rw [if_neg hne, if_neg hb]
    push_cast
    rfl

/-- Witness for C5: a concrete round with 3 agreement hits, 1 conflict
hit and only 2 responders scores exactly 0.75 (no group-size bonus). -/
theorem detect_consensus_formula_witness :
    detect_consensus [[], ["i agree exactly", "precisely, however"]] = 3/4 := by
  have h := detect_consensus_formula [[], ["i agree exactly", "precisely, however"]]
    ["i agree exactly", "precisely, however"] 3 1
    (by decide) (by decide) (by decide) (by decide)
  have he := h.2.2 (by decide) (by decide)
  rw [he]
  norm_num

/-- Each entered Group-mode loop iteration increments `iteration_count`
by exactly one. -/
theorem groupStep_iterations (oracle : GroupState → String → List String) (st : GroupState) :
    (groupStep oracle st).iterations = st.iterations + 1 := by
  unfold groupStep
  split
  · rfl
  · split
    · rfl
    · split
      · rfl
      · rfl

/-- Each Group-mode loop iteration completes at most one turn. -/
theorem groupStep_turns_len (oracle : GroupState → String → List String) (st : GroupState) :
    (groupStep oracle st).turns.length ≤ st.turns.length + 1 := by
  unfold groupStep
  split
  · exact Nat.le_succ _
  · split
    · exact Nat.le_succ _
    · split
      · exact Nat.le_succ _
      · simp

/-- A property preserved by every guarded Group-mode step holds of the
loop's final state. -/
theorem groupLoop_invariant (oracle : GroupState → String → List String)
    (P : GroupState → Prop)
    (hstep : ∀ st, groupGuard st → P st → P (groupStep oracle st)) :
    ∀ (n : Nat) (st : GroupState), max_total_iterations - st.iterations = n →
      P st → P (groupLoop oracle st) := by
  intro n
  induction n with
  | zero =>
    intro st hn hP
    rw [groupLoop]
    split
    · rename_i hg
      exfalso
      have h2 : st.iterations < max_total_iterations := hg.2.2
      omega
    · exact hP
  | succ n ih =>
    intro st hn hP
    rw [groupLoop]
    split
    · rename_i hg
      exact ih (groupStep oracle st)
        (by rw [groupStep_iterations]; omega) (hstep st hg hP)
    · exact hP

/-- The Group-mode loop only stops once its guard is falsified. -/
theorem groupLoop_stops (oracle : GroupState → String → List String) :
    ∀ (n : Nat) (st : GroupState), max_total_iterations - st.iterations = n →
      ¬ groupGuard (groupLoop oracle st) := by
  intro n
  induction n with
  | zero =>
    intro st hn
    rw [groupLoop]
    split
    · rename_i hg
      exfalso
      have h2 : st.iterations < max_total_iterations := hg.2.2
      omega
    · rename_i hg
      exact hg
  | succ n ih =>
    intro st hn
    rw [groupLoop]
    split
    · rename_i hg
      exact ih (groupStep oracle st) (by rw [groupStep_iterations]; omega)
    · rename_i hg
      exact hg

/-- C1: for every classifier behavior (seed queue) and every tier-2
oracle behavior, the Group-mode pass — a total function of this
embedding, so termination holds by construction — performs at most 10
dequeue operations (`iterations` counts loop entries, each popping the
queue head exactly once), completes at most 10 agent turns, and its
final state falsifies the loop guard: the queue is empty, or the
agent-to-agent round counter exceeds the cap 2, or the iteration cap 10
is reached — whichever comes first. -/
theorem group_mode_terminates (oracle : GroupState → String → List String)
    (seed : List String) :
    (groupLoop oracle ⟨seed, [], 0, 0, []⟩).iterations ≤ max_total_iterations ∧
    (groupLoop oracle ⟨seed, [], 0, 0, []⟩).turns.length ≤ max_total_iterations ∧
    ((groupLoop oracle ⟨seed, [], 0, 0, []⟩).queue = [] ∨
      max_agent_to_agent_rounds < (groupLoop oracle ⟨seed, [], 0, 0, []⟩).round ∨
      max_total_iterations ≤ (groupLoop oracle ⟨seed, [], 0, 0, []⟩).iterations) := by
  have hinv := groupLoop_invariant oracle
    (fun st => st.turns.length ≤ st.iterations ∧ st.iterations ≤ max_total_iterations)
    (fun st hg hP => by
      refine ⟨?_, ?_⟩
      · have hlen := groupStep_turns_len oracle st
        rw [groupStep_iterations]
        omega
      · rw [groupStep_iterations]
        exact hg.2.2)
    (max_total_iterations - 0) ⟨seed, [], 0, 0, []⟩ rfl ⟨by simp, by simp⟩
  have hstop := groupLoop_stops oracle (max_total_iterations - 0) ⟨seed, [], 0, 0, []⟩ rfl
  refine ⟨hinv.2, le_trans hinv.1 hinv.2, ?_⟩
  by_cases hq2 : (groupLoop oracle ⟨seed, [], 0, 0, []⟩).queue = []
  · exact Or.inl hq2
  · by_cases hr2 : max_agent_to_agent_rounds < (groupLoop oracle ⟨seed, [], 0, 0, []⟩).round
    · exact Or.inr (Or.inl hr2)
    · refine Or.inr (Or.inr ?_)
      have hr3 := Nat.not_lt.mp hr2
      have hi : ¬ (groupLoop oracle ⟨seed, [], 0, 0, []⟩).iterations < max_total_iterations :=
        fun hi => hstop ⟨hq2, hr3, hi⟩
      exact Nat.not_lt.mp hi

/-- The Group-mode step preserves distinctness of the completed turns
and their containment in the responded set. -/
theorem groupStep_nodup (oracle : GroupState → String → List String) (st : GroupState)
    (h : st.turns.Nodup ∧ ∀ a ∈ st.turns, a ∈ st.responded) :
    (groupStep oracle st).turns.Nodup ∧
      ∀ a ∈ (groupStep oracle st).turns, a ∈ (groupStep oracle st).responded := by
  unfold groupStep
  split
  · exact h
  · rename_i agent_id rest
    split
    · exact h
    · rename_i hresp
      split
      · exact h
      · constructor
        · rw [List.nodup_append]
          refine ⟨h.1, List.nodup_singleton _, ?_⟩
          intro a ha hb
          rw [List.mem_singleton] at hb
          subst hb
          exact hresp (h.2 a ha)
        · intro a ha
          rw [List.mem_append] at ha ⊢
          rcases ha with ha | ha
          · exact Or.inl (h.2 a ha)
          · exact Or.inr ha

/-- C2 (amended): in Group mode no agent id appears twice among the
completed turns of a pass, for every classifier and tier-2 oracle
behavior — the responded set is checked before every dequeue is honored;
in Conference mode the completed-turn sequence is duplicate-free
whenever the classifier's parsed order is duplicate-free (the source
never deduplicates that order, see the counterexample). -/
theorem no_duplicate_turns :
    (∀ (oracle : GroupState → String → List String) (seed : List String),
      (groupLoop oracle ⟨seed, [], 0, 0, []⟩).turns.Nodup) ∧
    (∀ raw : List String, raw.Nodup → (coordinate_conference_turns raw).Nodup) := by
  constructor
  · intro oracle seed
    have hinv := groupLoop_invariant oracle
      (fun st => st.turns.Nodup ∧ ∀ a ∈ st.turns, a ∈ st.responded)
      (fun st _ hP => groupStep_nodup oracle st hP)
      (max_total_iterations - 0) ⟨seed, [], 0, 0, []⟩ rfl ⟨List.nodup_nil, by simp⟩
    exact hinv.1
  · intro raw hraw
    unfold coordinate_conference_turns
    rw [List.nodup_cons]
    constructor
    · intro hmem
      rw [List.mem_filter] at hmem
      have hne := hmem.2
      simp only [decide_eq_true_eq] at hne
      exact hne rfl
    · have horder : (analyze_query raw).Nodup := by
        simp only [analyze_query]
        split
        · decide
        · exact hraw.filter _
      exact horder.filter _

/-- C2 counterexample: a classifier output that repeats a valid id makes
Conference mode produce two completed turns by the same agent
(`mathew`), falsifying the no-duplicate claim for Conference mode. -/
theorem conference_duplicate_turns_counterexample :
    ¬ (coordinate_conference_turns ["mathew", "mathew"]).Nodup := by decide

/-- Witness for C2 at a concrete duplicate-free classifier order. -/
theorem no_duplicate_turns_witness :
    (coordinate_conference_turns ["mathew"]).Nodup :=
  no_duplicate_turns.2 ["mathew"] (by decide)

/-- `newly_added` is empty iff every mentioned id was already responded
or already queued (taking into account ids enqueued earlier in the same
mention list). -/
theorem enqueueMentions_added_nil_iff (responded : List String) :
    ∀ (mentions queue : List String),
      (enqueueMentions responded queue mentions).2 = [] ↔
        ∀ m ∈ mentions, m ∈ responded ∨ m ∈ queue
  | [], queue => by
    simp [enqueueMentions]
  | m :: rest, queue => by
    by_cases hc : m ∉ responded ∧ m ∉ queue
    · rw [enqueueMentions, if_pos hc]
      constructor
      · intro hfalse
        exact absurd hfalse (List.cons_ne_nil _ _)
      · intro hall
        rcases hall m (List.mem_cons_self _ _) with h | h
        · exact absurd h hc.1
        · exact absurd h hc.2
    · rw [enqueueMentions, if_neg hc]
      rw [enqueueMentions_added_nil_iff responded rest queue]
      rw [List.forall_mem_cons]
      constructor
      · intro hall
        refine ⟨?_, hall⟩
        rcases not_and_or.mp hc with h | h
        · exact Or.inl (not_not.mp h)
        · exact Or.inr (not_not.mp h)
      · intro hall
        exact hall.2

/-- C7: when the dequeued agent actually completes a turn (a roster id
not yet responded), the round counter is incremented iff at least one id
returned by the tier-2 routing was newly enqueued — neither in the
updated responded set (which now holds the speaker) nor in the remaining
queue; otherwise the counter is unchanged, so a reply that only
re-mentions already-responded or already-queued agents consumes no round
budget. -/
theorem group_round_increment_iff_new (oracle : GroupState → String → List String)
    (st : GroupState) (agent_id : String) (rest : List String)
    (hq : st.queue = agent_id :: rest) (hresp : agent_id ∉ st.responded)
    (hvalid : agent_id ∈ agentIds) :
    (groupStep oracle st).round =
      if ∃ m ∈ oracle st agent_id, m ∉ st.responded ++ [agent_id] ∧ m ∉ rest
      then st.round + 1 else st.round := by
  have hiff : ((enqueueMentions (st.responded ++ [agent_id]) rest (oracle st agent_id)).2 ≠ []) ↔
      ∃ m ∈ oracle st agent_id, m ∉ st.responded ++ [agent_id] ∧ m ∉ rest := by
    rw [Ne, enqueueMentions_added_nil_iff]
    push_neg
    rfl
  have hgoal : (groupStep oracle st).round =
      if (enqueueMentions (st.responded ++ [agent_id]) rest (oracle st agent_id)).2 ≠ []
      then st.round + 1 else st.round := by
    simp only [groupStep, hq]
    rw [if_neg hresp, if_neg (fun hn => hn hvalid)]
  rw [hgoal]
  simp only [hiff]

/-- Witness for C7: a pass seeded with the leader alone, whose reply
routing returns a fresh agent, increments the round counter. -/
theorem group_round_increment_iff_new_witness :
    (groupStep (fun _ _ => ["mathew"]) ⟨["rahil"], [], 0, 0, []⟩).round =
      if ∃ m ∈ ["mathew"], m ∉ ([] : List String) ++ ["rahil"] ∧ m ∉ ([] : List String)
      then 0 + 1 else 0 :=
  group_round_increment_iff_new (fun _ _ => ["mathew"]) ⟨["rahil"], [], 0, 0, []⟩
    "rahil" [] rfl (by decide) (by decide)

/-- `summaryCount` distributes over concatenation. -/
theorem summaryCount_append (l1 l2 : List TTEvent) :
    summaryCount (l1 ++ l2) = summaryCount l1 + summaryCount l2 := by
  simp [summaryCount, List.filter_append]

/-- Agent-turn events are never synthesis events. -/
theorem summaryCount_agentTurns (r : Nat) (ids : List String) :
    summaryCount (ids.map (TTEvent.agentTurn r)) = 0 := by
  induction ids with
  | nil => rfl
  | cons a t ih =>
    simp only [List.map_cons]
    rw [show (TTEvent.agentTurn r a :: t.map (TTEvent.agentTurn r)) =
      [TTEvent.agentTurn r a] ++ t.map (TTEvent.agentTurn r) from rfl]
    rw [summaryCount_append, ih]
    rfl

/-- Each outer Think-Tank iteration bumps the round counter by one. -/
theorem ttBody_round (participants : List String)
    (oracle : Nat → RoundState → String → List String)
    (content : Nat → String → String) (min_consensus : ℚ) (st : TTState) :
    (ttBody participants oracle content min_consensus st).discussion_round =
      st.discussion_round + 1 := by
  simp only [ttBody]
  split
  · split
    · rfl
    · rfl
  · rfl

/-- The outer Think-Tank loop body emits no synthesis events. -/
theorem ttBody_summaryCount (participants : List String)
    (oracle : Nat → RoundState → String → List String)
    (content : Nat → String → String) (min_consensus : ℚ) (st : TTState) :
    summaryCount (ttBody participants oracle content min_consensus st).events =
      summaryCount st.events := by
  simp only [ttBody]
  split
  · split
    · simp [summaryCount_append, summaryCount_agentTurns, summaryCount]
    · simp [summaryCount_append, summaryCount_agentTurns, summaryCount]
  · simp [summaryCount_append, summaryCount_agentTurns, summaryCount]

/-- A property preserved by every guarded outer Think-Tank iteration
holds of the loop's final state. -/
theorem ttLoop_invariant (participants : List String)
    (oracle : Nat → RoundState → String → List String)
    (content : Nat → String → String) (max_rounds : Nat) (min_consensus : ℚ)
    (P : TTState → Prop)
    (hstep : ∀ st, ttGuard max_rounds st → P st →
      P (ttBody participants oracle content min_consensus st)) :
    ∀ (n : Nat) (st : TTState), max_rounds - st.discussion_round = n → P st →
      P (ttLoop participants oracle content max_rounds min_consensus st) := by
  intro n
  induction n with
  | zero =>
    intro st hn hP
    rw [ttLoop]
    split
    · rename_i hg
      exfalso
      have h2 : st.discussion_round < max_rounds := hg.1
      omega
    · exact hP
  | succ n ih =>
    intro st hn hP
    rw [ttLoop]
    split
    · rename_i hg
      exact ih _ (by rw [ttBody_round]; omega) (hstep st hg hP)
    · exact hP

/-- C6: a Think-Tank run whose initial classification intent is not
`greeting` (errors are outside this embedding: the oracles model the
error-free external behavior) contains exactly one leader synthesis
event, whatever the round count, the consensus threshold and the oracle
behaviors — the discussion loop emits none and exactly one is appended
after the loop ends, by consensus or by round exhaustion. -/
theorem think_tank_single_synthesis (d0 dGroup : ParsedRouting)
    (oracle : Nat → RoundState → String → List String)
    (groupOracle : GroupState → String → List String)
    (content : Nat → String → String) (max_rounds : Nat) (min_consensus : ℚ)
    (h : (route_user_query d0).context ≠ some "greeting") :
    summaryCount
      (think_tank_mode d0 dGroup oracle groupOracle content max_rounds min_consensus) = 1 := by
  simp only [think_tank_mode]
  rw [if_neg h]
  rw [summaryCount_append]
  have hz : summaryCount
      (ttLoop (route_user_query d0).agent_ids oracle content max_rounds min_consensus
        ⟨0, false, [], []⟩).events = 0 :=
    ttLoop_invariant (route_user_query d0).agent_ids oracle content max_rounds min_consensus
      (fun st => summaryCount st.events = 0)
      (fun st _ hP =>
        (ttBody_summaryCount (route_user_query d0).agent_ids oracle content
          min_consensus st).trans hP)
      (max_rounds - 0) ⟨0, false, [], []⟩ rfl rfl
  rw [hz]
  rfl

/-- Witness for C6 at a concrete non-greeting classification. -/
theorem think_tank_single_synthesis_witness :
    summaryCount
      (think_tank_mode ⟨["rahil"], none, none, some "expertise_match"⟩
        ⟨["rahil"], none, none, some "expertise_match"⟩
        (fun _ _ _ => []) (fun _ _ => []) (fun _ _ => "") 5 (85/100)) = 1 :=
  think_tank_single_synthesis ⟨["rahil"], none, none, some "expertise_match"⟩
    ⟨["rahil"], none, none, some "expertise_match"⟩
    (fun _ _ _ => []) (fun _ _ => []) (fun _ _ => "") 5 (85/100) (by decide)

/-- Witness for C4 on a concrete classifier output naming the replying
agent itself, a teammate and a non-roster id. -/
theorem route_agent_response_valid_no_self_witness :
    "mathew" ∈ (route_agent_response "rahil"
      ⟨["mathew", "rahil", "bob"], none, none, none⟩).agent_ids ∧
    "mathew" ∈ agentIds ∧ "mathew" ≠ "rahil" :=
  ⟨by decide, route_agent_response_valid_no_self "rahil"
    ⟨["mathew", "rahil", "bob"], none, none, none⟩ "mathew" (by decide)⟩
